import Mathlib

/-!
Verification of the DataCollector text-aggregation pipeline
(`datacollector.py`): discovery of files by extension under root
directories, sequential and pooled reading with per-file failure
isolation, and the final write/cleanup phase of `main`.

Paths are modelled as component lists; a filesystem is a finite list of
entries (in traversal order) together with a function giving the outcome
of opening each path for text reading.
-/

namespace DataCollector

/-- A filesystem path, as its list of components (mirrors `pathlib.Path`). -/
abbrev FilePath := List String

/-- The final component of a path (`pathlib.Path.name`); empty for the empty path. -/
def pname (p : FilePath) : String :=
  (p.getLast?).getD ""

/-- Index of the last dot in a character list (`str.rfind`). -/
def lastDotIdx : List Char → Option Nat
  | [] => none
  | c :: rest =>
    match lastDotIdx rest with
    | some j => some (j + 1)
    | none => if c = '.' then some 0 else none

/-- `pathlib.Path.suffix` on a file name: the substring from the last dot,
provided that dot is neither the first nor the last character; else `""`. -/
def pySuffix (name : String) : String :=
  let cs := name.data
  match lastDotIdx cs with
  | none => ""
  | some i => if 0 < i ∧ i < cs.length - 1 then String.mk (cs.drop i) else ""

/-- `str.lower`, character by character. -/
def pyLower (s : String) : String :=
  String.mk (s.data.map Char.toLower)

/-- Kind of a filesystem entry. -/
inductive FSKind where
  | file
  | dir
deriving DecidableEq

/-- One filesystem entry: a path and its kind. -/
structure FSEntry where
  path : FilePath
  kind : FSKind
deriving DecidableEq

/-- Outcome of opening a path with `open(..., 'r', encoding='utf-8')` and
reading it: decoded text, a `UnicodeDecodeError`, or another exception. -/
inductive ReadOutcome where
  | text (s : String)
  | decodeError
  | ioError (msg : String)
deriving DecidableEq

/-- A filesystem snapshot: entries in traversal order, and the read
outcome of each path. -/
structure FS where
  entries : List FSEntry
  readOf : FilePath → ReadOutcome

/-- The kind recorded for a path, if the path exists. -/
def FS.kindOf (fs : FS) (p : FilePath) : Option FSKind :=
  ((fs.entries).find? (fun e => e.path = p)).map FSEntry.kind

/-- `Path.exists()`. -/
def FS.pathExists (fs : FS) (p : FilePath) : Bool :=
  (fs.kindOf p).isSome

/-- `Path.is_dir()`. -/
def FS.isDir (fs : FS) (p : FilePath) : Bool :=
  fs.kindOf p == some FSKind.dir

/-- `Path.is_file()`. -/
def FS.isFile (fs : FS) (p : FilePath) : Bool :=
  fs.kindOf p == some FSKind.file

/-- `folder.rglob('*')`: every entry strictly below `folder`, in
traversal order. -/
def FS.rglobAll (fs : FS) (folder : FilePath) : List FilePath :=
  ((fs.entries).filter
    (fun e => folder.isPrefixOf e.path && !(folder == e.path))).map FSEntry.path

/-- Severity of one log record (`logging.warning` / `logging.error`). -/
inductive Severity where
  | warning
  | logError
deriving DecidableEq

/-- One record written to the log sink. -/
structure LogRecord where
  sev : Severity
  msg : String
deriving DecidableEq

/-- Rendering of a path in a log message. -/
def pathStr (p : FilePath) : String :=
  String.intercalate "/" p

/-- The warning logged for a missing or non-directory root. -/
def rootWarnMsg (folder : FilePath) : String :=
  "Папка " ++ pathStr folder ++ " не существует или не является директорией."

/-- The warning logged for an undecodable file. -/
def decodeWarnMsg (p : FilePath) : String :=
  "Файл " ++ pathStr p ++ " не является текстовым или имеет неподдерживаемую кодировку. Пропускаю."

/-- The error logged for any other read failure. -/
def readErrMsg (p : FilePath) (e : String) : String :=
  "Ошибка при чтении файла " ++ pathStr p ++ ": " ++ e

/-- The banner block built for a successfully decoded file. -/
def fileBanner (name text : String) : String :=
  "--- Содержимое файла: " ++ name ++ " ---\n" ++ text ++ "\n\n"

/-- The per-file filter of discovery: a regular file whose suffix equals
the extension case-insensitively. -/
def matchesExt (fs : FS) (extension : String) (p : FilePath) : Bool :=
  fs.isFile p && (pyLower (pySuffix (pname p)) == pyLower extension)

/-- The discovery loop of `collect_text_from_folders` (lines 17–28): for
each root in caller order, either log one warning (missing or
non-directory root) or append every matching descendant file.  Returns
the matched file list and the log records, in order. -/
def discoverFiles (fs : FS) (folders : List FilePath) (extension : String) :
    List FilePath × List LogRecord :=
  match folders with
  | [] => ([], [])
  | folder :: rest =>
    let restRes := discoverFiles fs rest extension
    if fs.pathExists folder && fs.isDir folder then
      ((fs.rglobAll folder).filter (matchesExt fs extension) ++ restRes.1, restRes.2)
    else
      (restRes.1, ⟨Severity.warning, rootWarnMsg folder⟩ :: restRes.2)

/-- `read_file` (lines 33–47): the block yielded for one file together
with the log records it emits. -/
def read_file (fs : FS) (p : FilePath) : String × List LogRecord :=
  match fs.readOf p with
  | ReadOutcome.text t => (fileBanner (pname p) t, [])
  | ReadOutcome.decodeError => ("", [⟨Severity.warning, decodeWarnMsg p⟩])
  | ReadOutcome.ioError e => ("", [⟨Severity.logError, readErrMsg p e⟩])

/-- The blocks yielded for a list of files, one per file in list order. -/
def readSequential (fs : FS) (files : List FilePath) : List String :=
  files.map (fun p => (read_file fs p).1)

/-- `collect_text_from_folders` (lines 15–56): discover, return nothing
if no file matched, otherwise yield one block per file — in input order
sequentially, or in pool-completion order (`completionOrder`) with
multithreading.  A behaviour of the thread pool is any `completionOrder`
that is a permutation of the discovered list. -/
def collect_text_from_folders (fs : FS) (folders : List FilePath)
    (extension : String) (use_multithreading : Bool)
    (completionOrder : List FilePath) : List String :=
  let all_files := (discoverFiles fs folders extension).1
  if all_files = [] then []
  else if use_multithreading then readSequential fs completionOrder
  else readSequential fs all_files

/-- The aggregation the caller performs: concatenate the non-empty blocks
in delivery order. -/
def aggregateOutput (blocks : List String) : String :=
  String.join (blocks.filter (fun b => !(b == "")))

/-- State of the artifacts of `main`: content of the temporary file and
of the output file when they exist, plus the log. -/
structure OutState where
  tempFile : Option String
  outputFile : Option String
  log : List LogRecord
deriving DecidableEq

/-- Outcome of `output_file.write_text(...)`: success, or an exception
leaving the output file in state `leftover` (absent, or truncated or
written in part). -/
inductive WriteResult where
  | ok
  | err (leftover : Option String) (msg : String)
deriving DecidableEq

/-- The error logged when writing the output file fails. -/
def writeErrMsg (e : String) : String :=
  "Ошибка при записи файла: " ++ e

/-- The write phase of `main` (lines 120–129): on success the output file
receives the temporary file's content and the temporary file is removed;
on failure an error is logged, the temporary file is removed, and the
output file is left in whatever state the failed write produced. -/
def finalizeOutput (st : OutState) (res : WriteResult) : OutState :=
  match res with
  | WriteResult.ok => { st with outputFile := st.tempFile, tempFile := none }
  | WriteResult.err leftover e =>
    { st with outputFile := leftover, tempFile := none,
              log := st.log ++ [⟨Severity.logError, writeErrMsg e⟩] }

/-- A concrete filesystem used as test data: one root holding a decodable
`.txt` file, an undecodable `.TXT` file in a subdirectory, a `.md` file,
a `archive.txt.gz` file, a dot-file named `.txt`, a directory named
`dir.txt`, and an unreadable `.log` file inside it. -/
def fsA : FS where
  entries :=
    [⟨["root"], FSKind.dir⟩,
     ⟨["root", "a.txt"], FSKind.file⟩,
     ⟨["root", "sub"], FSKind.dir⟩,
     ⟨["root", "sub", "b.TXT"], FSKind.file⟩,
     ⟨["root", "c.md"], FSKind.file⟩,
     ⟨["root", "archive.txt.gz"], FSKind.file⟩,
     ⟨["root", ".txt"], FSKind.file⟩,
     ⟨["root", "dir.txt"], FSKind.dir⟩,
     ⟨["root", "dir.txt", "inner.log"], FSKind.file⟩]
  readOf := fun p =>
    if p = ["root", "a.txt"] then ReadOutcome.text "hello"
    else if p = ["root", "sub", "b.TXT"] then ReadOutcome.decodeError
    else ReadOutcome.ioError "denied"

/-- Membership in `rglobAll` means being a strict descendant of the folder. -/
theorem mem_rglobAll {fs : FS} {folder p : FilePath}
    (h : p ∈ fs.rglobAll folder) : folder <+: p ∧ folder ≠ p := by
  simp only [FS.rglobAll, List.mem_map, List.mem_filter] at h
  obtain ⟨e, ⟨-, hcond⟩, rfl⟩ := h
  rw [Bool.and_eq_true] at hcond
  refine ⟨List.isPrefixOf_iff_prefix.mp hcond.1, ?_⟩
  intro heq
  rw [heq] at hcond
  simp at hcond

/-- Every file produced by discovery is a regular file, has the requested
suffix case-insensitively, and lies strictly below one of the roots. -/
theorem discover_mem {fs : FS} {folders : List FilePath} {extension : String}
    {p : FilePath} (hp : p ∈ (discoverFiles fs folders extension).1) :
    fs.isFile p = true ∧ pyLower (pySuffix (pname p)) = pyLower extension ∧
    ∃ folder ∈ folders, folder <+: p ∧ folder ≠ p := by
  induction folders with
  | nil => simp [discoverFiles] at hp
  | cons folder rest ih =>
    simp only [discoverFiles] at hp
    by_cases hok : (fs.pathExists folder && fs.isDir folder) = true
    · rw [if_pos hok] at hp
      rcases List.mem_append.mp hp with hin | hin
      · rw [List.mem_filter] at hin
        obtain ⟨hglob, hmatch⟩ := hin
        rw [matchesExt, Bool.and_eq_true, beq_iff_eq] at hmatch
        exact ⟨hmatch.1, hmatch.2, folder, List.mem_cons_self folder rest,
          mem_rglobAll hglob⟩
      · obtain ⟨hf, hs, r, hr, hdesc⟩ := ih hin
        exact ⟨hf, hs, r, List.mem_cons_of_mem folder hr, hdesc⟩
    · rw [if_neg hok] at hp
      obtain ⟨hf, hs, r, hr, hdesc⟩ := ih hp
      exact ⟨hf, hs, r, List.mem_cons_of_mem folder hr, hdesc⟩

/-- C1: every file path in the list built by `collect_text_from_folders`
before reading has a file-name suffix equal to the extension under
case-insensitive comparison and is a descendant of one of the supplied
roots. -/
theorem discovery_suffix_and_descendant (fs : FS) (folders : List FilePath)
    (extension : String) (p : FilePath)
    (hp : p ∈ (discoverFiles fs folders extension).1) :
    pyLower (pySuffix (pname p)) = pyLower extension ∧
    ∃ folder ∈ folders, folder <+: p ∧ folder ≠ p :=
  ⟨(discover_mem hp).2.1, (discover_mem hp).2.2⟩

/-- Witness for C1 at a concrete filesystem and root. -/
theorem discovery_suffix_and_descendant_witness :
    pyLower (pySuffix (pname ["root", "a.txt"])) = pyLower ".txt" ∧
    ∃ folder ∈ [(["root"] : FilePath)],
      folder <+: ["root", "a.txt"] ∧ folder ≠ ["root", "a.txt"] :=
  discovery_suffix_and_descendant fsA [["root"]] ".txt" ["root", "a.txt"]
    (by decide)

/-- C2: a root that does not exist or is not a directory contributes zero
entries to the discovered list, produces exactly one WARNING record
naming that root, and the remaining roots are still processed in caller
order. -/
theorem bad_root_skipped (fs : FS) (pre post : List FilePath) (bad : FilePath)
    (extension : String) (hbad : (fs.pathExists bad && fs.isDir bad) = false) :
    (discoverFiles fs (pre ++ bad :: post) extension).1 =
      (discoverFiles fs pre extension).1 ++ (discoverFiles fs post extension).1 ∧
    (discoverFiles fs (pre ++ bad :: post) extension).2 =
      (discoverFiles fs pre extension).2 ++
        ⟨Severity.warning, rootWarnMsg bad⟩ :: (discoverFiles fs post extension).2 := by
  induction pre with
  | nil =>
    simp only [List.nil_append, discoverFiles]
    rw [if_neg (by simp [hbad])]
    simp [discoverFiles]
  | cons f rest ih =>
    simp only [List.cons_append, discoverFiles]
    by_cases hf : (fs.pathExists f && fs.isDir f) = true
    · rw [if_pos hf, if_pos hf]
      simp [ih.1, ih.2]
    · rw [if_neg hf, if_neg hf]
      simp [ih.1, ih.2]

/-- Witness for C2: a missing root before a valid one. -/
theorem bad_root_skipped_witness :
    (discoverFiles fsA ([] ++ ["ghost"] :: [["root"]]) ".txt").1 =
      (discoverFiles fsA [] ".txt").1 ++ (discoverFiles fsA [["root"]] ".txt").1 ∧
    (discoverFiles fsA ([] ++ ["ghost"] :: [["root"]]) ".txt").2 =
      (discoverFiles fsA [] ".txt").2 ++
        ⟨Severity.warning, rootWarnMsg ["ghost"]⟩ ::
          (discoverFiles fsA [["root"]] ".txt").2 :=
  bad_root_skipped fsA [] [["root"]] ["ghost"] ".txt" (by decide)

/-- C3: with `use_multithreading = false` the pipeline yields exactly one
block per discovered file, in exactly the discovered order, and the block
at a position whose file is unreadable or undecodable is empty. -/
theorem sequential_preserves_order (fs : FS) (folders : List FilePath)
    (extension : String) (completionOrder : List FilePath) :
    (collect_text_from_folders fs folders extension false completionOrder).length =
      (discoverFiles fs folders extension).1.length ∧
    (∀ i, (collect_text_from_folders fs folders extension false completionOrder).get? i =
      ((discoverFiles fs folders extension).1.get? i).map
        (fun p => (read_file fs p).1)) ∧
    (∀ i p, (discoverFiles fs folders extension).1.get? i = some p →
      (fs.readOf p = ReadOutcome.decodeError ∨ ∃ e, fs.readOf p = ReadOutcome.ioError e) →
      (collect_text_from_folders fs folders extension false completionOrder).get? i =
        some "") := by
  have hout : collect_text_from_folders fs folders extension false completionOrder =
      readSequential fs (discoverFiles fs folders extension).1 := by
    by_cases h : (discoverFiles fs folders extension).1 = []
    · simp [collect_text_from_folders, h, readSequential]
    · simp [collect_text_from_folders, h]
  rw [hout]
  refine ⟨by simp [readSequential], fun i => by simp [readSequential, List.get?_map], ?_⟩
  intro i p hi hfail
  simp only [readSequential, List.get?_map, hi, Option.map_some]
  rcases hfail with hdec | ⟨e, hio⟩
  · simp [read_file, hdec]
  · simp [read_file, hio]

/-- Witness for C3: the undecodable file occupies position 1 with an
empty block. -/
theorem sequential_preserves_order_witness :
    (collect_text_from_folders fsA [["root"]] ".txt" false []).get? 1 = some "" :=
  (sequential_preserves_order fsA [["root"]] ".txt" []).2.2 1
    ["root", "sub", "b.TXT"] (by decide) (Or.inl (by decide))

/-- C4: an undecodable file yields an empty block and one WARNING record;
any other read failure yields an empty block and one ERROR record; and in
either case the surrounding batch is unaffected — the blocks of every
other file are exactly what reading each of them alone produces. -/
theorem read_failure_isolated (fs : FS) (p : FilePath) :
    (fs.readOf p = ReadOutcome.decodeError →
      read_file fs p = ("", [⟨Severity.warning, decodeWarnMsg p⟩])) ∧
    (∀ e, fs.readOf p = ReadOutcome.ioError e →
      read_file fs p = ("", [⟨Severity.logError, readErrMsg p e⟩])) ∧
    (∀ pre post, readSequential fs (pre ++ p :: post) =
      readSequential fs pre ++ (read_file fs p).1 :: readSequential fs post) := by
  refine ⟨fun hdec => by simp [read_file, hdec], fun e hio => by simp [read_file, hio], ?_⟩
  intro pre post
  simp [readSequential]

/-- Witness for C4 at the undecodable file of the concrete filesystem. -/
theorem read_failure_isolated_witness :
    read_file fsA ["root", "sub", "b.TXT"] =
      ("", [⟨Severity.warning, decodeWarnMsg ["root", "sub", "b.TXT"]⟩]) :=
  (read_failure_isolated fsA ["root", "sub", "b.TXT"]).1 (by decide)

/-- C5 as stated is false: the banner literal in the code is the Russian
string beginning `--- Содержимое файла: `, not `--- File content: `; at a
concrete decodable file the yielded block differs from the claimed
string. -/
theorem banner_not_english :
    (read_file fsA ["root", "a.txt"]).1 ≠
      "--- File content: a.txt ---\nhello\n\n" := by
  decide

/-- C5 amended: for every matched file that decodes successfully, the
block yielded is exactly
`"--- Содержимое файла: " ++ name ++ " ---\n" ++ text ++ "\n\n"`. -/
theorem banner_format (fs : FS) (p : FilePath) (t : String)
    (h : fs.readOf p = ReadOutcome.text t) :
    (read_file fs p).1 =
      "--- Содержимое файла: " ++ pname p ++ " ---\n" ++ t ++ "\n\n" := by
  simp [read_file, h, fileBanner]

/-- Witness for the amended C5 at a concrete file. -/
theorem banner_format_witness :
    (read_file fsA ["root", "a.txt"]).1 =
      "--- Содержимое файла: " ++ pname ["root", "a.txt"] ++ " ---\nhello\n\n" :=
  banner_format fsA ["root", "a.txt"] "hello" (by decide)

/-- C6: when discovery finds no matching file, the pipeline yields no
blocks at all, in both sequential and concurrent mode. -/
theorem no_matches_no_output (fs : FS) (folders : List FilePath)
    (extension : String) (h : (discoverFiles fs folders extension).1 = [])
    (use_multithreading : Bool) (completionOrder : List FilePath) :
    collect_text_from_folders fs folders extension use_multithreading
      completionOrder = [] := by
  simp [collect_text_from_folders, h]

/-- Witness for C6: no `.doc` file exists in the concrete filesystem. -/
theorem no_matches_no_output_witness :
    collect_text_from_folders fsA [["root"]] ".doc" true [] = [] :=
  no_matches_no_output fsA [["root"]] ".doc" (by decide) true []

/-- C7: with `use_multithreading = true`, for every completion order the
pool may produce (a permutation of the discovered list) the pipeline
yields exactly one result per file, and the multiset of non-empty blocks
equals that of the sequential mode on the same input. -/
theorem concurrent_matches_sequential (fs : FS) (folders : List FilePath)
    (extension : String) (completionOrder : List FilePath)
    (h : completionOrder.Perm (discoverFiles fs folders extension).1) :
    (collect_text_from_folders fs folders extension true completionOrder).length =
      (discoverFiles fs folders extension).1.length ∧
    ((collect_text_from_folders fs folders extension true completionOrder).filter
        (fun b => !(b == ""))).Perm
      ((collect_text_from_folders fs folders extension false completionOrder).filter
        (fun b => !(b == ""))) := by
  by_cases hemp : (discoverFiles fs folders extension).1 = []
  · have hco : completionOrder = [] := by
      rw [hemp] at h
      exact h.eq_nil
    simp [collect_text_from_folders, hemp, hco]
  · have hperm : (readSequential fs completionOrder).Perm
        (readSequential fs (discoverFiles fs folders extension).1) :=
      h.map (fun p => (read_file fs p).1)
    constructor
    · simp [collect_text_from_folders, hemp, readSequential, h.length_eq]
    · simp only [collect_text_from_folders, hemp, if_neg, if_pos, if_false, if_true,
        Bool.false_eq_true, ite_false, ite_true]
      exact (hperm.filter (fun b => !(b == "")))

/-- Witness for C7: the two discovered files completed in reversed order. -/
theorem concurrent_matches_sequential_witness :
    (collect_text_from_folders fsA [["root"]] ".txt" true
        [["root", "sub", "b.TXT"], ["root", "a.txt"]]).length =
      (discoverFiles fsA [["root"]] ".txt").1.length ∧
    ((collect_text_from_folders fsA [["root"]] ".txt" true
        [["root", "sub", "b.TXT"], ["root", "a.txt"]]).filter
          (fun b => !(b == ""))).Perm
      ((collect_text_from_folders fsA [["root"]] ".txt" false
        [["root", "sub", "b.TXT"], ["root", "a.txt"]]).filter
          (fun b => !(b == ""))) :=
  concurrent_matches_sequential fsA [["root"]] ".txt"
    [["root", "sub", "b.TXT"], ["root", "a.txt"]] (by decide)

/-- C8: over an unchanged filesystem and the same inputs the pipeline is
deterministic — two sequential runs aggregate to byte-identical output,
and two concurrent runs (any two completion orders the pool may produce)
yield the same blocks up to reordering. -/
theorem pipeline_deterministic (fs : FS) (folders : List FilePath)
    (extension : String) (order1 order2 : List FilePath)
    (h1 : order1.Perm (discoverFiles fs folders extension).1)
    (h2 : order2.Perm (discoverFiles fs folders extension).1) :
    aggregateOutput (collect_text_from_folders fs folders extension false order1) =
      aggregateOutput (collect_text_from_folders fs folders extension false order2) ∧
    (collect_text_from_folders fs folders extension true order1).Perm
      (collect_text_from_folders fs folders extension true order2) := by
  constructor
  · rfl
  · by_cases hemp : (discoverFiles fs folders extension).1 = []
    · simp [collect_text_from_folders, hemp]
    · simp only [collect_text_from_folders, hemp, if_neg, ite_false, ite_true,
        Bool.false_eq_true]
      exact (h1.trans h2.symm).map (fun p => (read_file fs p).1)

/-- Witness for C8: the discovered order against its reversal. -/
theorem pipeline_deterministic_witness :
    aggregateOutput (collect_text_from_folders fsA [["root"]] ".txt" false
        [["root", "a.txt"], ["root", "sub", "b.TXT"]]) =
      aggregateOutput (collect_text_from_folders fsA [["root"]] ".txt" false
        [["root", "sub", "b.TXT"], ["root", "a.txt"]]) ∧
    (collect_text_from_folders fsA [["root"]] ".txt" true
        [["root", "a.txt"], ["root", "sub", "b.TXT"]]).Perm
      (collect_text_from_folders fsA [["root"]] ".txt" true
        [["root", "sub", "b.TXT"], ["root", "a.txt"]]) :=
  pipeline_deterministic fsA [["root"]] ".txt"
    [["root", "a.txt"], ["root", "sub", "b.TXT"]]
    [["root", "sub", "b.TXT"], ["root", "a.txt"]] (by decide) (by decide)

/-- C9 as stated is false: when the final write fails after leaving the
output file in part written, `main` removes only the temporary file — the
output file artifact remains. -/
theorem write_failure_leaves_output_behind :
    (finalizeOutput ⟨some "X", none, []⟩
        (WriteResult.err (some "par") "disk full")).outputFile ≠ none := by
  decide

/-- C9 amended: when the final write fails, the failure is logged as
ERROR, the temporary file is removed, and the output file is left in
whatever state the failed write produced (it is not cleaned up). -/
theorem write_failure_cleanup (st : OutState) (leftover : Option String)
    (e : String) :
    (finalizeOutput st (WriteResult.err leftover e)).tempFile = none ∧
    (finalizeOutput st (WriteResult.err leftover e)).log =
      st.log ++ [⟨Severity.logError, writeErrMsg e⟩] ∧
    (finalizeOutput st (WriteResult.err leftover e)).outputFile = leftover := by
  simp [finalizeOutput]

/-- C10: discovery matches only the final suffix component — a file named
`archive.txt.gz` never matches `.txt`, a dot-file named exactly `.txt`
matches no non-empty extension, and a directory is never returned. -/
theorem suffix_matching_is_final_component (fs : FS) (folders : List FilePath)
    (extension : String) (p : FilePath) (hext : extension ≠ "") :
    (pname p = "archive.txt.gz" → p ∉ (discoverFiles fs folders ".txt").1) ∧
    (pname p = ".txt" → p ∉ (discoverFiles fs folders extension).1) ∧
    (fs.isDir p = true → p ∉ (discoverFiles fs folders extension).1) := by
  refine ⟨?_, ?_, ?_⟩
  · intro hname hp
    have hs := (discover_mem hp).2.1
    rw [hname] at hs
    exact absurd hs (by decide)
  · intro hname hp
    have hs := (discover_mem hp).2.1
    rw [hname] at hs
    have hnil : extension.data.map Char.toLower = [] := by
      have : pyLower extension = "" := by
        have hsuf : pyLower (pySuffix ".txt") = "" := by decide
        rw [← hs, hsuf]
      simpa [pyLower, String.mk] using congrArg String.data this
    exact hext (by
      have := List.map_eq_nil.mp hnil
      cases hx : extension
      simp_all)
  · intro hdir hp
    have hf := (discover_mem hp).1
    rw [FS.isFile, beq_iff_eq] at hf
    rw [FS.isDir, beq_iff_eq] at hdir
    rw [hdir] at hf
    simp at hf

/-- Witness for C10: the `archive.txt.gz` file of the concrete filesystem
is not discovered under extension `.txt`. -/
theorem suffix_matching_is_final_component_witness :
    ["root", "archive.txt.gz"] ∉ (discoverFiles fsA [["root"]] ".txt").1 :=
  (suffix_matching_is_final_component fsA [["root"]] ".txt"
    ["root", "archive.txt.gz"] (by decide)).1 rfl

end DataCollector
